import Mathlib

/-!
Shallow embedding of the port-forward and remote-session subsystem of the
`dockim` repository, together with proofs of the specified properties.

The embedding covers:
* the client-retry loop of `src/cli/neovim.rs` (`run_neovim_client_with_retry`,
  `handle_connection_failure`, `run_foreground_neovim_client`,
  `run_background_neovim_client`);
* the free-port finder of `src/devcontainer.rs`
  (`find_available_host_port`) and `choose_host_port` of
  `src/auto_port_forward.rs`;
* relay (socat sidecar container) management of `src/devcontainer.rs`
  (`socat_container_name`, `forward_port`, `stop_forward_port`,
  `list_forwarded_ports`, `remove_all_forwarded_ports`);
* the auto-discovery loop `run_auto_forward` of `src/auto_port_forward.rs`.

Effectful Rust code is modelled by explicit state passing: the docker daemon
state is the list of running relay containers, randomness is an explicit
stream of draws, process/timing outcomes are explicit parameters, and the
async loops are folds over a list of iteration events.
-/

namespace Dockim

/-! ## Client-retry loop (src/cli/neovim.rs) -/

/-- The `MIN_DURATION` constant of `run_neovim_client_with_retry`
(500 milliseconds), used by the too-fast-exit heuristic. -/
def MIN_DURATION : Nat := 500

/-- Result of `Child::try_wait` on the server process: an error from the
check itself, or `Option` of an exit status (`some` when the process has
exited, `none` when it is still running). Statuses are modelled as `Nat`. -/
abbrev TryWaitResult := Except String (Option Nat)

/-- Translation of the liveness test inside `handle_connection_failure`:
`nvim.lock().await.try_wait().map_or(true, |s| s.is_some())`. An error from
`try_wait` is mapped to `true` (server treated as finished). -/
def is_server_finished (try_wait : TryWaitResult) : Bool :=
  match try_wait with
  | .error _ => true
  | .ok s => s.isSome

/-- Translation of `handle_connection_failure` (src/cli/neovim.rs:280-296).
Returns the list of performed sleeps (in seconds) and the `should_retry`
boolean that the Rust function returns: when the server is finished it
returns `false` without sleeping; otherwise it sleeps `retry_interval`
seconds and returns `true`. -/
def handle_connection_failure (try_wait : TryWaitResult) (retry_interval : Nat) :
    List Nat × Bool :=
  if is_server_finished try_wait then ([], false)
  else ([retry_interval], true)

/-- Environment of one iteration of the retry loop: the outcome of
`run_neovim_client` for this attempt and the `try_wait` observation made on
the server process if this attempt fails. -/
structure AttemptEnv where
  client_result : Except String Unit
  server_try_wait : TryWaitResult

/-- Final outcome of the retry loop: the client attached (`ok`), the loop
escalated the terminal server-dead error (`serverDead`), or the supplied
script of attempt environments ran out while the loop would still be
retrying (`pending`). -/
inductive RetryOutcome where
  | ok
  | serverDead (e : String)
  | pending
deriving DecidableEq, Repr

/-- Translation of the loop body of `run_neovim_client_with_retry`
(src/cli/neovim.rs:223-244), driven by a finite script of attempt
environments. Returns the sleeps performed (in order, in seconds) and the
outcome. On a client failure the loop consults `handle_connection_failure`;
if it says not to retry, the loop returns the client error wrapped as the
terminal server-dead failure, otherwise it doubles the retry interval,
capping it at 10 seconds, and tries again. The entry point starts with
`retry_interval = 1`. -/
def run_neovim_client_with_retry :
    List AttemptEnv → Nat → List Nat × RetryOutcome
  | [], _ => ([], .pending)
  | env :: rest, retry_interval =>
    match env.client_result with
    | .ok _ => ([], .ok)
    | .error e =>
      let handled := handle_connection_failure env.server_try_wait retry_interval
      if handled.2 then
        let cont := run_neovim_client_with_retry rest (min (retry_interval * 2) 10)
        (handled.1 ++ cont.1, cont.2)
      else
        (handled.1, .serverDead e)

/-- An attempt that fails with error `e` while the server is still alive
(`try_wait` returned `Ok(None)`). -/
def fail_alive (e : String) : AttemptEnv :=
  { client_result := .error e, server_try_wait := .ok none }

/-- Translation of `run_foreground_neovim_client` (src/cli/neovim.rs:265-278).
`elapsed_millis` is the measured wall-clock duration of the client process
and `output` the client's own result; if the client finished in under
`min_duration_millis` the result is the too-fast error regardless of
`output` (the source formats the elapsed seconds into the message; the
model keeps milliseconds). -/
def run_foreground_neovim_client (elapsed_millis : Nat)
    (output : Except String Unit) (min_duration_millis : Nat) :
    Except String Unit :=
  if elapsed_millis < min_duration_millis then
    .error ("Neovim client finished too fast: " ++ toString elapsed_millis ++ " millis")
  else
    output

/-- Translation of `run_background_neovim_client` (src/cli/neovim.rs:254-263).
The spawned child is left running; after a fixed 500 ms sleep the child is
checked with the non-blocking `try_wait`. The returned list records the
sleeps performed (in milliseconds). `Ok(Some(_))` (already exited) becomes
the too-fast error, `Ok(None)` (still running) is success, and an error of
the check itself is propagated. -/
def run_background_neovim_client (spawn_result : Except String Unit)
    (try_wait_after_delay : TryWaitResult) :
    List Nat × Except String Unit :=
  match spawn_result with
  | .error e => ([], .error e)
  | .ok _ =>
    ([500],
      match try_wait_after_delay with
      | .ok (some _) => .error ("Neovim client finished too fast in background")
      | .ok none => .ok ()
      | .error e => .error e)

/-! ## Free-port finder (src/devcontainer.rs:601-619, src/auto_port_forward.rs:109-118)

`is_host_port_available` test-binds `127.0.0.1:port`; the model abstracts it
as a predicate `available : Nat → Bool` on ports. The random draws of
`rand::rng().random_range(50000..60000)` are modelled by an explicit stream
`rng : Nat → Nat` of raw draws, mapped into the half-open range
`[50000, 60000)` exactly as `random_range` guarantees. -/

/-- Contract of `random_range(50000..60000)`: the candidate derived from the
raw draw `r` lies in the half-open range `[50000, 60000)`. -/
def random_range_50000_60000 (r : Nat) : Nat :=
  50000 + r % 10000

/-- The error message of `find_available_host_port` after 1000 failed
attempts (src/devcontainer.rs:612-614). -/
def exhausted_msg : String :=
  "No available ports found in range 50000-60000 after 1000 attempts"

/-- The probing loop of `DevContainer::find_available_host_port`: attempt
index `i` consumes draw `rng i`; at most `fuel` attempts remain. -/
def find_port_from (available : Nat → Bool) (rng : Nat → Nat) :
    Nat → Nat → Except String Nat
  | _, 0 => .error exhausted_msg
  | i, fuel + 1 =>
    let port := random_range_50000_60000 (rng i)
    if available port then .ok port
    else find_port_from available rng (i + 1) fuel

/-- Translation of `DevContainer::find_available_host_port`
(src/devcontainer.rs:601-615): try random ports from `[50000, 60000)` up to
1000 times, returning the first available one, and the exhaustion error
after 1000 failed attempts. -/
def find_available_host_port (available : Nat → Bool) (rng : Nat → Nat) :
    Except String Nat :=
  find_port_from available rng 0 1000

/-- Translation of `choose_host_port` (src/auto_port_forward.rs:110-118):
use `container_port` on the host when it can be bound on loopback, else
fall back to `find_available_host_port`, and on its failure to
`container_port` itself (`unwrap_or`). -/
def choose_host_port (available : Nat → Bool) (rng : Nat → Nat)
    (container_port : Nat) : Nat :=
  if available container_port then container_port
  else
    match find_available_host_port available rng with
    | .ok p => p
    | .error _ => container_port

/-! ## Relay (socat sidecar) management (src/devcontainer.rs)

The docker daemon state relevant to relays is the list of running socat
containers, each with its `--name` and its socat command string. `docker
run -d --rm --name n` refuses to start a second container named `n`, and
`docker stop n` (the container was started with `--rm`) removes the
container named `n`; the relay operations below thread this state
explicitly. -/

/-- One running socat relay container: its docker name and the socat
command shown by `docker ps --format` (`TCP-LISTEN:1234,fork
TCP-CONNECT:ip:container_port`). -/
structure SocatContainer where
  name : String
  command : String
deriving DecidableEq, Repr

/-- One entry of a `port ls` listing (`ForwardedPort` of
src/devcontainer.rs:40-43). -/
structure ForwardedPort where
  host_port : String
  container_port : String
deriving DecidableEq, Repr

/-- Translation of `DevContainer::socat_container_name`
(src/devcontainer.rs:621-631): `format!("dockim-{}-socat-{}",
container_id, host_port)`. -/
def socat_container_name (container_id host_port : String) : String :=
  "dockim-" ++ container_id ++ "-socat-" ++ host_port

/-- The socat invocation arguments passed by `forward_port`
(src/devcontainer.rs:497-517), as one command string. -/
def socat_command (ip container_port : String) : String :=
  "TCP-LISTEN:1234,fork TCP-CONNECT:" ++ ip ++ ":" ++ container_port

/-- A start or stop operation on the relay namespace of one container
session: `DevContainer::forward_port` / `DevContainer::stop_forward_port`. -/
inductive RelayOp where
  | start (host_port container_port : String)
  | stop (host_port : String)

/-- The host port an operation addresses. -/
def host_port_of : RelayOp → String
  | .start hp _ => hp
  | .stop hp => hp

/-- Effect of one relay operation on the docker state. `start` models
`forward_port`: it launches a container named
`socat_container_name container_id host_port`; when a container with that
name already exists, `docker run --name` fails and the state is unchanged
(`forward_port` returns the launch error). `stop` models
`stop_forward_port`: `docker stop` on the exact deterministic name removes
that container (`--rm`); with no such container it fails and the state is
unchanged. -/
def relay_step (container_id ip : String) (st : List SocatContainer) :
    RelayOp → List SocatContainer
  | .start hp cp =>
    let n := socat_container_name container_id hp
    if st.any (fun c => c.name == n) then st
    else { name := n, command := socat_command ip cp } :: st
  | .stop hp =>
    let n := socat_container_name container_id hp
    st.filter (fun c => !(c.name == n))

/-- Run a sequence of relay operations from a given docker state. -/
def run_relay_ops (container_id ip : String) (st : List SocatContainer)
    (ops : List RelayOp) : List SocatContainer :=
  ops.foldl (relay_step container_id ip) st

/-- Translation of `name.split('-').next_back()` in `list_forwarded_ports`
(src/devcontainer.rs:560): the substring after the last `-` (the whole
string when it has no `-`); `next_back` on the split iterator is always
`Some`. -/
def extract_host_port (name : String) : String :=
  String.mk ((name.data.reverse.takeWhile (fun c => c != '-')).reverse)

/-- Translation of `trim_end_matches('"')`
(src/devcontainer.rs:577): strip all trailing double quotes. -/
def trim_end_quotes (s : String) : String :=
  String.mk ((s.data.reverse.dropWhile (fun c => c == '"')).reverse)

/-- Translation of the container-port recovery in `list_forwarded_ports`
(src/devcontainer.rs:564-580): over the whitespace-separated words of the
socat command, find the first word containing `TCP-CONNECT:` (a word
contains the pattern exactly when splitting on it yields a second piece,
which is what `split("TCP-CONNECT:").nth(1)` inspects), take the piece
after the pattern, take its second `:`-separated piece, strip trailing
quotes; `unwrap_or("unknown")` when nothing matches. -/
def parse_container_port (command : String) : String :=
  let parsed := (command.splitOn (" ")).filterMap (fun arg =>
    match (arg.splitOn ("TCP-CONNECT:")).drop 1 with
    | [] => none
    | rest :: _ =>
      match (rest.splitOn (":")).drop 1 with
      | [] => none
      | port :: _ => some (trim_end_quotes port))
  (parsed.head?).getD ("unknown")

/-- Translation of `DevContainer::list_forwarded_ports`
(src/devcontainer.rs:534-589): `docker ps --filter
name={socat_container_name(container_id, "")}` enumerates the running
containers whose name starts with the session's relay-name prefix; each is
rendered as a `ForwardedPort` whose host port is the last `-`-separated
piece of the name and whose container port is parsed from the socat
command. -/
def list_forwarded_ports (container_id : String) (st : List SocatContainer) :
    List ForwardedPort :=
  (st.filter (fun c =>
      (socat_container_name container_id ("")).data.isPrefixOf c.name.data)).map
    (fun c =>
      { host_port := extract_host_port c.name
        container_port := parse_container_port c.command })

/-- Translation of `DevContainer::remove_all_forwarded_ports`
(src/devcontainer.rs:591-599): stop the listed ports in order, propagating
the first `stop_forward_port` failure with `?`. The `stop` argument is the
outcome of `stop_forward_port` for each host port, and the first component
of the result instruments the model with the host ports for which a stop
was actually attempted (in order), so that the abort behaviour is
observable. -/
def remove_all_forwarded_ports (stop : String → Except String Unit) :
    List ForwardedPort → List String × Except String Unit
  | [] => ([], .ok ())
  | p :: rest =>
    match stop p.host_port with
    | .error e => ([p.host_port], .error e)
    | .ok _ =>
      let cont := remove_all_forwarded_ports stop rest
      (p.host_port :: cont.1, cont.2)

/-- The relay naming convention as the specification words it:
`{tool-prefix}-{container_id}-relay-{host_port}`, with the tool prefix left
abstract and the literal marker `relay`. Used only to compare the
specified convention with `socat_container_name`. -/
def spec_relay_name (tool_pre container_id host_port : String) : String :=
  tool_pre ++ "-" ++ container_id ++ "-relay-" ++ host_port

/-! ## Auto-discovery loop (src/auto_port_forward.rs:45-107)

`run_auto_forward` owns a `HashMap` from container port to
`(host_port, PortForwardGuard)`, modelled as an association list whose
entries carry the guard's socat container name (dropping a
`PortForwardGuard` runs `docker stop` on that name, which is the teardown
of the relay). Each loop iteration is driven by a `PollRecord`: the outcome
of `detect_listening_ports` plus the environment responses of this
iteration (`choose_host_port`'s result per container port, and whether
`forward_port` succeeds for a host/container port pair). The `select!`
between the shutdown receiver and the 2-second sleep is modelled by the
event list: a `shutdown` event wins the race and breaks the loop. -/

/-- One entry of the auto-forward map:
`(container_port, host_port, guard name)`. -/
abbrev AutoEntry := Nat × Nat × String

/-- Environment of one poll iteration of the auto-discovery loop. -/
structure PollRecord where
  listening : Except String (List Nat)
  choose_host : Nat → Nat
  forward_ok : Nat → Nat → Bool

/-- One wake-up of the `select!` at the head of the loop: either the
one-shot shutdown signal fired, or the 2-second sleep elapsed and the loop
polls. -/
inductive AutoEvent where
  | shutdown
  | poll (rec : PollRecord)

/-- Whether an event is the shutdown signal. -/
def AutoEvent.isShutdown : AutoEvent → Bool
  | .shutdown => true
  | .poll _ => false

/-- One poll iteration of `run_auto_forward` (src/auto_port_forward.rs:60-102).
On a `detect_listening_ports` error the iteration is skipped. Otherwise the
listening ports are filtered to `p > 1024 && !exclude_ports.contains(&p)`
and collected into a set (`dedup`); each candidate not already forwarded
gets a host port from `choose_host` and, when `forward_port` succeeds, is
inserted into the map (on failure it is logged and skipped); finally every
forwarded container port no longer in the listening set is removed from
the map, its guard being dropped — the second component returns the guard
names dropped by this iteration, in order. -/
def auto_forward_iteration (container_id : String) (exclude : List Nat)
    (forwarded : List AutoEntry) (rec : PollRecord) :
    List AutoEntry × List String :=
  match rec.listening with
  | .error _ => (forwarded, [])
  | .ok listening =>
    let listening_set :=
      (listening.filter (fun p => decide (1024 < p) && !(exclude.contains p))).dedup
    let additions := listening_set.filterMap (fun cp =>
      if forwarded.any (fun e => e.1 == cp) then none
      else
        let hp := rec.choose_host cp
        if rec.forward_ok hp cp then
          some (cp, hp, socat_container_name container_id (toString hp))
        else none)
    let forwarded1 := forwarded ++ additions
    (forwarded1.filter (fun e => listening_set.contains e.1),
     (forwarded1.filter (fun e => !(listening_set.contains e.1))).map
       (fun e => e.2.2))

/-- The loop of `run_auto_forward` (src/auto_port_forward.rs:54-107) over a
finite list of wake-up events. Returns the final forwarded map and the
guard names dropped over the whole run, in order. A `shutdown` event breaks
the loop and drops every remaining entry of the map
(src/auto_port_forward.rs:105-106); when the events run out the loop is
still in progress with its current map. -/
def run_auto_forward (container_id : String) (exclude : List Nat) :
    List AutoEntry → List AutoEvent → List AutoEntry × List String
  | forwarded, [] => (forwarded, [])
  | forwarded, .shutdown :: _ => ([], forwarded.map (fun e => e.2.2))
  | forwarded, .poll rec :: rest =>
    let step := auto_forward_iteration container_id exclude forwarded rec
    let cont := run_auto_forward container_id exclude step.1 rest
    (cont.1, step.2 ++ cont.2)

/-- Stop behaviour for the stop-all examples: `docker stop` fails for the
relay of host port 8080 and succeeds for every other relay. -/
def stop_fails_8080 : String → Except String Unit :=
  fun hp => if hp == "8080" then .error ("failed to stop 8080") else .ok ()

/-- Listing used by the stop-all counterexample: two active relays. -/
def two_ports_ex : List ForwardedPort :=
  [{ host_port := "8080", container_port := "80" },
   { host_port := "9090", container_port := "90" }]

/-- Availability oracle for the free-port-finder witness: only port 50007
is bindable; the preferred port 8080 is already bound. -/
def avail_ex : Nat → Bool := fun p => p == 50007

/-- Random-draw stream for the free-port-finder witness. -/
def rng_ex : Nat → Nat := fun _ => 7

/-- Poll record for the auto-forward examples: the container reports
listening ports 3000, 54321, 80 and 9999; host ports mirror container
ports; every forward succeeds. -/
def poll_ex : PollRecord :=
  { listening := .ok [3000, 54321, 80, 9999]
    choose_host := fun cp => cp
    forward_ok := fun _ _ => true }

/-- Event trace for the auto-forward examples: a single successful poll. -/
def evs_ex : List AutoEvent := [.poll poll_ex]

/-! ## Helper lemmas: free-port finder -/

/-- Every port returned by the probing loop lies in `[50000, 60000)` and
was observed available. -/
theorem find_port_from_ok_spec (available : Nat → Bool) (rng : Nat → Nat) :
    ∀ (fuel i p : Nat), find_port_from available rng i fuel = .ok p →
      (50000 ≤ p ∧ p < 60000) ∧ available p = true
  | 0, _, _, h => by simp [find_port_from] at h
  | fuel + 1, i, p, h => by
    unfold find_port_from at h
    by_cases ha : available (random_range_50000_60000 (rng i)) = true
    · rw [if_pos ha] at h
      obtain rfl : random_range_50000_60000 (rng i) = p := by
        simpa using h
      refine ⟨?_, ha⟩
      unfold random_range_50000_60000
      have := Nat.mod_lt (rng i) (y := 10000) (by norm_num)
      omega
    · rw [if_neg ha] at h
      exact find_port_from_ok_spec available rng fuel (i + 1) p h

/-- The probing loop reports exhaustion exactly when every one of its
`fuel` candidates probes unavailable. -/
theorem find_port_from_err_spec (available : Nat → Bool) (rng : Nat → Nat) :
    ∀ (fuel i : Nat),
      (find_port_from available rng i fuel = .error exhausted_msg
        ↔ ∀ j, j < fuel →
            available (random_range_50000_60000 (rng (i + j))) = false)
  | 0, i => by simp [find_port_from]
  | fuel + 1, i => by
    unfold find_port_from
    by_cases ha : available (random_range_50000_60000 (rng i)) = true
    · rw [if_pos ha]
      constructor
      · intro h
        exact absurd h (by simp)
      · intro h
        have h0 := h 0 (by omega)
        rw [Nat.add_zero] at h0
        rw [ha] at h0
        exact absurd h0 (by simp)
    · rw [if_neg ha]
      rw [find_port_from_err_spec available rng fuel (i + 1)]
      constructor
      · intro h j hj
        match j with
        | 0 =>
          rw [Nat.add_zero]
          exact Bool.eq_false_iff.mpr ha
        | j' + 1 =>
          have := h j' (by omega)
          rw [show i + 1 + j' = i + (j' + 1) by omega] at this
          exact this
      · intro h j hj
        have := h (j + 1) (by omega)
        rw [show i + (j + 1) = i + 1 + j by omega] at this
        exact this

/-! ## Claim theorem: free-port finder -/

/-- C8: when the preferred host port is not bindable on loopback, any port
the randomized finder returns lies in the range 50000–60000, was confirmed
bindable at the time it was chosen, differs from the preferred port, and is
the port `choose_host_port` hands back; and the finder reports exhaustion
exactly when all of its 1000 candidate probes fail. -/
theorem free_port_fallback (available : Nat → Bool) (rng : Nat → Nat)
    (pref : Nat) (hpref : available pref = false) :
    (∀ p, find_available_host_port available rng = .ok p →
      (50000 ≤ p ∧ p < 60000) ∧ available p = true ∧ p ≠ pref
      ∧ choose_host_port available rng pref = p)
    ∧ (find_available_host_port available rng = .error exhausted_msg
        ↔ ∀ i, i < 1000 →
            available (random_range_50000_60000 (rng i)) = false) := by
  constructor
  · intro p hp
    have hspec := find_port_from_ok_spec available rng 1000 0 p hp
    refine ⟨hspec.1, hspec.2, ?_, ?_⟩
    · intro hep
      rw [hep, hpref] at hspec
      exact absurd hspec.2 (by simp)
    · simp [choose_host_port, hpref, hp]
  · have h := find_port_from_err_spec available rng 1000 0
    simpa [find_available_host_port] using h

/-- Witness for C8: with preferred port 8080 pre-bound and only 50007
bindable, the finder returns 50007 on its first draw and `choose_host_port`
hands it back. -/
theorem free_port_fallback_witness :
    avail_ex 8080 = false
    ∧ find_available_host_port avail_ex rng_ex = .ok 50007
    ∧ ((∀ p, find_available_host_port avail_ex rng_ex = .ok p →
        (50000 ≤ p ∧ p < 60000) ∧ avail_ex p = true ∧ p ≠ 8080
        ∧ choose_host_port avail_ex rng_ex 8080 = p)
      ∧ (find_available_host_port avail_ex rng_ex = .error exhausted_msg
          ↔ ∀ i, i < 1000 →
              avail_ex (random_range_50000_60000 (rng_ex i)) = false)) :=
  ⟨rfl, rfl, free_port_fallback avail_ex rng_ex 8080 rfl⟩

/-! ## Helper lemmas: retry backoff -/

/-- Doubling a capped interval and recapping equals capping the doubled
uncapped interval. -/
theorem min_double_cap (r : Nat) (i : Nat) :
    min (min (r * 2) 10 * 2 ^ i) 10 = min (r * (2 ^ (i + 1))) 10 := by
  rcases le_or_lt (r * 2) 10 with h | h
  · rw [Nat.min_eq_left h, pow_succ]
    ring_nf
  · rw [Nat.min_eq_right (le_of_lt h)]
    have h1 : (10 : Nat) ≤ 10 * 2 ^ i :=
      Nat.le_mul_of_pos_right 10 (Nat.pos_pow_of_pos i (by norm_num))
    have h2 : (10 : Nat) ≤ r * 2 ^ (i + 1) := by
      calc (10 : Nat) ≤ r * 2 := le_of_lt h
        _ ≤ r * 2 ^ (i + 1) := by
            apply Nat.mul_le_mul_left
            calc (2 : Nat) = 2 ^ 1 := (pow_one 2).symm
              _ ≤ 2 ^ (i + 1) := Nat.pow_le_pow_right (by norm_num) (by omega)
    rw [Nat.min_eq_right h1, Nat.min_eq_right h2]

/-- Running the retry loop against `k` failures with the server alive
sleeps the doubled-and-capped intervals `min (r·2^i) 10` for
`i = 0, …, k-1` and then continues with the interval `min (r·2^k) 10`. -/
theorem run_retry_replicate_fail (e : String) (rest : List AttemptEnv) :
    ∀ (k r : Nat), r ≤ 10 →
      run_neovim_client_with_retry (List.replicate k (fail_alive e) ++ rest) r
        = ((List.range k).map (fun i => min (r * 2 ^ i) 10)
             ++ (run_neovim_client_with_retry rest (min (r * 2 ^ k) 10)).1,
           (run_neovim_client_with_retry rest (min (r * 2 ^ k) 10)).2)
  | 0, r, hr => by
    simp [Nat.min_eq_left hr]
  | k + 1, r, hr => by
    have hr' : min (r * 2) 10 ≤ 10 := min_le_right _ _
    have ih := run_retry_replicate_fail e rest k (min (r * 2) 10) hr'
    have hstep :
        run_neovim_client_with_retry
            (List.replicate (k + 1) (fail_alive e) ++ rest) r
          = (r :: (run_neovim_client_with_retry
                (List.replicate k (fail_alive e) ++ rest) (min (r * 2) 10)).1,
             (run_neovim_client_with_retry
                (List.replicate k (fail_alive e) ++ rest) (min (r * 2) 10)).2) := by
      simp [List.replicate_succ, run_neovim_client_with_retry,
        handle_connection_failure, is_server_finished, fail_alive]
    rw [hstep, ih]
    have hfun : (fun i => min (min (r * 2) 10 * 2 ^ i) 10)
        = (fun i => min (r * 2 ^ (i + 1)) 10) := funext (min_double_cap r)
    rw [hfun, min_double_cap r k, List.range_succ_eq_map, List.map_cons,
      List.map_map, List.cons_append]
    simp [Function.comp, Nat.min_eq_left hr]

/-! ## Claim theorems: client-retry loop -/

/-- C3: in the client-retry loop, across `k` consecutive connection
failures with the server alive, the sleep intervals are exactly
`min (2^i) 10` seconds for `i = 0, …, k-1` — the sequence
`1, 2, 4, 8, 10, 10, …` that starts at 1, doubles after each failure, is
capped at 10 — and the interval sequence never decreases. -/
theorem retry_backoff_sequence (k i j : Nat) (e : String) (tw : TryWaitResult)
    (hij : i ≤ j) :
    run_neovim_client_with_retry
        (List.replicate k (fail_alive e)
          ++ [{ client_result := .ok (), server_try_wait := tw }]) 1
      = ((List.range k).map (fun n => min (2 ^ n) 10), .ok)
    ∧ min (2 ^ i) 10 ≤ min (2 ^ j) 10 := by
  constructor
  · have h := run_retry_replicate_fail e
      [{ client_result := .ok (), server_try_wait := tw }] k 1 (by norm_num)
    simpa [run_neovim_client_with_retry] using h
  · exact min_le_min (Nat.pow_le_pow_right (by norm_num) hij) (le_refl 10)

/-- Witness for C3: with six consecutive failures the loop sleeps
`1, 2, 4, 8, 10, 10` seconds and then attaches. -/
theorem retry_backoff_sequence_witness :
    run_neovim_client_with_retry
        (List.replicate 6 (fail_alive ("connection refused"))
          ++ [{ client_result := .ok (), server_try_wait := .ok none }]) 1
      = ([1, 2, 4, 8, 10, 10], .ok)
    ∧ min (2 ^ 0) 10 ≤ min (2 ^ 5) 10 := by
  have h := retry_backoff_sequence 6 0 5 ("connection refused") (.ok none)
    (by norm_num)
  simpa using h

/-- C5: a client failure observed after the server process has exited makes
the retry loop return the terminal server-dead error immediately, with no
sleep and no further attempt; a client failure while the server is alive
sleeps the current retry interval and proceeds to the next attempt with the
doubled (capped) interval. -/
theorem retry_server_death_short_circuit (r : Nat) (e : String) (s : Nat)
    (rest : List AttemptEnv) :
    run_neovim_client_with_retry
        ({ client_result := .error e, server_try_wait := .ok (some s) } :: rest) r
      = ([], .serverDead e)
    ∧ run_neovim_client_with_retry
        ({ client_result := .error e, server_try_wait := .ok none } :: rest) r
      = (r :: (run_neovim_client_with_retry rest (min (r * 2) 10)).1,
         (run_neovim_client_with_retry rest (min (r * 2) 10)).2) := by
  constructor
  · simp [run_neovim_client_with_retry, handle_connection_failure,
      is_server_finished]
  · simp [run_neovim_client_with_retry, handle_connection_failure,
      is_server_finished]

/-- C10: when the non-blocking liveness check itself returns an error, the
orchestrator treats the server as already exited: the liveness test yields
`true`, `handle_connection_failure` behaves exactly as for a genuinely
exited server (no sleep, do not retry), and the loop surfaces the terminal
server-dead failure. -/
theorem try_wait_error_treated_as_server_dead (err e : String) (r s : Nat)
    (rest : List AttemptEnv) :
    is_server_finished (.error err) = true
    ∧ handle_connection_failure (.error err) r
        = handle_connection_failure (.ok (some s)) r
    ∧ run_neovim_client_with_retry
        ({ client_result := .error e, server_try_wait := .error err } :: rest) r
      = ([], .serverDead e) := by
  refine ⟨rfl, rfl, ?_⟩
  simp [run_neovim_client_with_retry, handle_connection_failure,
    is_server_finished]

/-- C4: the foreground client run is a failure whenever the client exits in
under 500 ms, regardless of the client's own result, and is the client's
own result when it ran at least 500 ms; in background mode the same
heuristic is applied by the non-blocking exit check after the fixed 500 ms
delay: an already-exited child is a failure, a still-running child is
success. -/
theorem run_client_min_duration (elapsed : Nat) (output : Except String Unit)
    (s : Nat) :
    (elapsed < MIN_DURATION →
      run_foreground_neovim_client elapsed output MIN_DURATION
        = .error ("Neovim client finished too fast: " ++ toString elapsed
            ++ " millis"))
    ∧ (MIN_DURATION ≤ elapsed →
      run_foreground_neovim_client elapsed output MIN_DURATION = output)
    ∧ run_background_neovim_client (.ok ()) (.ok (some s))
        = ([500], .error ("Neovim client finished too fast in background"))
    ∧ run_background_neovim_client (.ok ()) (.ok none) = ([500], .ok ()) := by
  refine ⟨fun h => ?_, fun h => ?_, rfl, rfl⟩
  · unfold run_foreground_neovim_client
    rw [if_pos h]
  · unfold run_foreground_neovim_client
    rw [if_neg (Nat.not_lt.mpr h)]

/-- Witness for C4: a successful exit after 100 ms is reclassified as a
failure, and a successful exit after 600 ms is a success. -/
theorem run_client_min_duration_witness :
    (100 < MIN_DURATION
      ∧ run_foreground_neovim_client 100 (.ok ()) MIN_DURATION
          = .error ("Neovim client finished too fast: " ++ toString 100
              ++ " millis"))
    ∧ (MIN_DURATION ≤ 600
      ∧ run_foreground_neovim_client 600 (.ok ()) MIN_DURATION = .ok ()) :=
  ⟨⟨by decide, (run_client_min_duration 100 (.ok ()) 0).1 (by decide)⟩,
   ⟨by decide, (run_client_min_duration 600 (.ok ()) 0).2.1 (by decide)⟩⟩

/-! ## Claim theorems: stopping all relays -/

/-- Counterexample for C7: with two listed relays where stopping the first
fails, `remove_all_forwarded_ports` returns only that first failure and
never attempts (hence never accounts for) the second entry — it does not
report which entries failed. -/
theorem remove_all_first_failure_counterexample :
    remove_all_forwarded_ports stop_fails_8080 two_ports_ex
      = (["8080"], .error ("failed to stop 8080"))
    ∧ ((remove_all_forwarded_ports stop_fails_8080 two_ports_ex).1.contains
        ("9090")) = false :=
  ⟨rfl, rfl⟩

/-- C7 (amended): `remove_all_forwarded_ports` composes the listing with
`stop_forward_port` entry by entry, in order; when every stop succeeds it
returns `Ok` having attempted all entries, and on the first stop failure it
propagates that error immediately, leaving all later entries unattempted
(earlier successful stops stand, but the error accounts only for the first
failing entry). -/
theorem remove_all_aborts_on_first_failure (stop : String → Except String Unit) :
    (∀ l : List ForwardedPort, (∀ q ∈ l, stop q.host_port = .ok ()) →
      remove_all_forwarded_ports stop l
        = (l.map (fun q => q.host_port), .ok ()))
    ∧ (∀ (pre : List ForwardedPort) (p : ForwardedPort)
        (suf : List ForwardedPort) (e : String),
        (∀ q ∈ pre, stop q.host_port = .ok ()) →
        stop p.host_port = .error e →
        remove_all_forwarded_ports stop (pre ++ p :: suf)
          = (pre.map (fun q => q.host_port) ++ [p.host_port], .error e)) := by
  constructor
  · intro l
    induction l with
    | nil => intro _; rfl
    | cons q rest ih =>
      intro h
      have hq := h q (List.mem_cons_self q rest)
      have hrest := fun x hx => h x (List.mem_cons_of_mem q hx)
      simp [remove_all_forwarded_ports, hq, ih hrest]
  · intro pre
    induction pre with
    | nil =>
      intro p suf e _ hp
      simp [remove_all_forwarded_ports, hp]
    | cons q rest ih =>
      intro p suf e hpre hp
      have hq := hpre q (List.mem_cons_self q rest)
      have hrest := fun x hx => hpre x (List.mem_cons_of_mem q hx)
      simp [remove_all_forwarded_ports, hq, ih p suf e hrest hp]

/-- Witness for C7 (amended): one successful stop followed by a failing one
yields the first error and leaves the third entry unattempted. -/
theorem remove_all_aborts_witness :
    (∀ q ∈ ([{ host_port := "7070", container_port := "70" }] :
        List ForwardedPort), stop_fails_8080 q.host_port = .ok ())
    ∧ stop_fails_8080 ("8080") = .error ("failed to stop 8080")
    ∧ remove_all_forwarded_ports stop_fails_8080
        ([{ host_port := "7070", container_port := "70" }]
          ++ { host_port := "8080", container_port := "80" }
            :: [{ host_port := "9090", container_port := "90" }])
      = (["7070", "8080"], .error ("failed to stop 8080")) := by
  have hpre : ∀ q ∈ ([{ host_port := "7070", container_port := "70" }] :
      List ForwardedPort), stop_fails_8080 q.host_port = .ok () := by
    intro q hq
    rw [List.mem_singleton] at hq
    subst hq
    rfl
  have h := (remove_all_aborts_on_first_failure stop_fails_8080).2
    [{ host_port := "7070", container_port := "70" }]
    { host_port := "8080", container_port := "80" }
    [{ host_port := "9090", container_port := "90" }]
    ("failed to stop 8080") hpre rfl
  exact ⟨hpre, rfl, by simpa using h⟩

/-! ## Helper lemmas: relay names as strings -/

/-- The data of a session's relay name is the data of the session's name
prefix (the name built from the empty host port) followed by the data of
the host port. -/
theorem socat_name_data (cid hp : String) :
    (socat_container_name cid hp).data
      = (socat_container_name cid ("")).data ++ hp.data := by
  have h0 : ("" : String).data = [] := rfl
  simp [socat_container_name, String.data_append, h0]

/-- A list is a Boolean prefix of itself followed by anything. -/
theorem isPrefixOf_append_self (l t : List Char) : l.isPrefixOf (l ++ t) = true := by
  induction l with
  | nil => simp [List.isPrefixOf]
  | cons a as ih => simp [List.isPrefixOf, ih]

/-- `takeWhile` over a block that wholly satisfies the predicate followed
by an element that fails it returns exactly the block. -/
theorem takeWhile_all_append (p : Char → Bool) :
    ∀ (l1 : List Char) (a : Char) (l2 : List Char),
      (∀ c ∈ l1, p c = true) → p a = false →
      (l1 ++ a :: l2).takeWhile p = l1
  | [], a, l2, _, ha => by simp [List.takeWhile_cons, ha]
  | c :: cs, a, l2, h, ha => by
    have hc := h c (List.mem_cons_self c cs)
    simp [List.takeWhile_cons, hc,
      takeWhile_all_append p cs a l2
        (fun x hx => h x (List.mem_cons_of_mem c hx)) ha]

/-- Recovering the host port from a relay name: the substring after the
last `-` of `socat_container_name cid hp` is `hp` whenever `hp` contains
no `-` (true of all numeric host ports). -/
theorem extract_host_port_socat (cid hp : String)
    (h : ('-' : Char) ∉ hp.data) :
    extract_host_port (socat_container_name cid hp) = hp := by
  have hpre : (socat_container_name cid ("")).data
      = ("dockim-".data ++ cid.data ++ ['-', 's', 'o', 'c', 'a', 't']) ++ ['-'] := by
    have h0 : ("" : String).data = [] := rfl
    have hs : ("-socat-" : String).data = ['-', 's', 'o', 'c', 'a', 't', '-'] := by
      decide
    simp [socat_container_name, String.data_append, h0, hs]
  unfold extract_host_port
  rw [socat_name_data, hpre, List.reverse_append, List.reverse_append]
  have hall : ∀ c ∈ hp.data.reverse, (c != '-') = true := by
    intro c hc
    rw [List.mem_reverse] at hc
    have : c ≠ '-' := fun hceq => h (hceq ▸ hc)
    simpa using this
  have hstop : (('-' : Char) != '-') = false := by decide
  have htake := takeWhile_all_append (fun c => c != '-') hp.data.reverse '-'
    ("dockim-".data ++ cid.data ++ ['-', 's', 'o', 'c', 'a', 't']).reverse
    hall hstop
  simp only [List.reverse_cons, List.reverse_nil, List.nil_append,
    List.singleton_append]
  rw [htake, List.reverse_reverse]

/-! ## Helper lemmas: the relay-name invariant -/

/-- Invariant of the docker state of one container session: every running
relay container is named by `socat_container_name` for some `-`-free host
port, and container names are pairwise distinct (docker enforces name
uniqueness). -/
def session_inv (cid : String) (st : List SocatContainer) : Prop :=
  (∀ c ∈ st, ∃ hp, ('-' : Char) ∉ hp.data ∧ c.name = socat_container_name cid hp)
  ∧ (st.map (fun c => c.name)).Nodup

/-- One relay operation with a `-`-free host port preserves the session
invariant. -/
theorem relay_step_preserves_inv (cid ip : String) (st : List SocatContainer)
    (op : RelayOp) (hop : ('-' : Char) ∉ (host_port_of op).data)
    (h : session_inv cid st) :
    session_inv cid (relay_step cid ip st op) := by
  cases op with
  | start hp cp =>
    simp only [relay_step]
    cases hany : st.any (fun c => c.name == socat_container_name cid hp) with
    | true =>
      simpa [hany] using h
    | false =>
      simp only [hany, Bool.false_eq_true, if_false]
      constructor
      · intro c hc
        rcases List.mem_cons.mp hc with hc | hc
        · exact ⟨hp, hop, by rw [hc]⟩
        · exact h.1 c hc
      · rw [List.map_cons, List.nodup_cons]
        refine ⟨?_, h.2⟩
        intro hmem
        rcases List.mem_map.mp hmem with ⟨c, hc, hname⟩
        have : st.any (fun c => c.name == socat_container_name cid hp) = true :=
          List.any_eq_true.mpr ⟨c, hc, by simp [hname]⟩
        rw [hany] at this
        exact absurd this (by simp)
  | stop hp =>
    simp only [relay_step]
    constructor
    · intro c hc
      exact h.1 c (List.mem_of_mem_filter hc)
    · exact h.2.sublist ((List.filter_sublist st).map _)

/-- Any sequence of relay operations with `-`-free host ports preserves
the session invariant. -/
theorem run_relay_ops_preserves_inv (cid ip : String) :
    ∀ (ops : List RelayOp) (st : List SocatContainer),
      (∀ op ∈ ops, ('-' : Char) ∉ (host_port_of op).data) →
      session_inv cid st → session_inv cid (run_relay_ops cid ip st ops)
  | [], st, _, h => h
  | op :: ops, st, hops, h => by
    rw [run_relay_ops, List.foldl_cons]
    exact run_relay_ops_preserves_inv cid ip ops _
      (fun x hx => hops x (List.mem_cons_of_mem op hx))
      (relay_step_preserves_inv cid ip st op
        (hops op (List.mem_cons_self op ops)) h)

/-- Under the session invariant, the listing shows pairwise distinct host
ports: names are unique and the `-`-free host port is recovered exactly
from the name, so no host port repeats. -/
theorem listed_host_ports_nodup (cid : String) (st : List SocatContainer)
    (h : session_inv cid st) :
    ((list_forwarded_ports cid st).map (fun fp => fp.host_port)).Nodup := by
  unfold list_forwarded_ports
  rw [List.map_map]
  have hlsub := List.filter_sublist (p := fun c =>
    (socat_container_name cid ("")).data.isPrefixOf c.name.data) st
  have hnames : ((st.filter (fun c =>
      (socat_container_name cid ("")).data.isPrefixOf c.name.data)).map
        (fun c => c.name)).Nodup :=
    h.2.sublist (hlsub.map _)
  have hl : (st.filter (fun c =>
      (socat_container_name cid ("")).data.isPrefixOf c.name.data)).Nodup :=
    hnames.of_map _
  apply hl.map_on
  intro x hx y hy hxy
  obtain ⟨hpx, hdx, hnx⟩ := h.1 x (List.mem_of_mem_filter hx)
  obtain ⟨hpy, hdy, hny⟩ := h.1 y (List.mem_of_mem_filter hy)
  have hxy' : extract_host_port x.name = extract_host_port y.name := hxy
  rw [hnx, extract_host_port_socat cid hpx hdx, hny,
    extract_host_port_socat cid hpy hdy] at hxy'
  have hnamexy : x.name = y.name := by rw [hnx, hny, hxy']
  exact List.inj_on_of_nodup_map hnames hx hy hnamexy

/-! ## Claim theorems: relay uniqueness -/

/-- C2: for every sequence of start/stop relay operations of one container
session whose host ports are `-`-free (as all numeric ports are), starting
from no running relays, the listing never contains two entries with the
same host port: names are derived deterministically from the container id
and host port, a second start on an existing name fails instead of
creating a second relay, and names determine host ports. -/
theorem at_most_one_relay_per_host_port (cid ip : String) (ops : List RelayOp)
    (hops : ∀ op ∈ ops, ('-' : Char) ∉ (host_port_of op).data) :
    ((list_forwarded_ports cid (run_relay_ops cid ip [] ops)).map
      (fun fp => fp.host_port)).Nodup :=
  listed_host_ports_nodup cid _
    (run_relay_ops_preserves_inv cid ip ops [] hops
      ⟨fun c hc => absurd hc (List.not_mem_nil c), List.nodup_nil⟩)

/-- Witness for C2: a duplicate start, a stop and a fresh start on session
`abc` leave a listing with pairwise distinct host ports. -/
theorem at_most_one_relay_per_host_port_witness :
    (∀ op ∈ ([.start ("8080") ("80"), .start ("8080") ("81"),
        .stop ("8080"), .start ("9090") ("90")] : List RelayOp),
      ('-' : Char) ∉ (host_port_of op).data)
    ∧ ((list_forwarded_ports ("abc")
        (run_relay_ops ("abc") ("172.17.0.2") []
          [.start ("8080") ("80"), .start ("8080") ("81"),
           .stop ("8080"), .start ("9090") ("90")])).map
      (fun fp => fp.host_port)).Nodup := by
  have hops : ∀ op ∈ ([.start ("8080") ("80"), .start ("8080") ("81"),
      .stop ("8080"), .start ("9090") ("90")] : List RelayOp),
      ('-' : Char) ∉ (host_port_of op).data := by
    intro op hop
    simp only [List.mem_cons, List.not_mem_nil, or_false] at hop
    rcases hop with rfl | rfl | rfl | rfl <;> decide
  exact ⟨hops,
    at_most_one_relay_per_host_port ("abc") ("172.17.0.2") _ hops⟩

/-! ## Claim theorems: relay naming -/

/-- Counterexample for C9: the relay name produced by
`socat_container_name` for container id `abc` and host port `8080` is
`dockim-abc-socat-8080`, which matches the specified convention
`{tool-prefix}-{container_id}-relay-{host_port}` for no tool prefix: the
fixed marker in the name is `socat`, not `relay`. -/
theorem relay_name_not_spec_convention :
    socat_container_name ("abc") ("8080") = "dockim-abc-socat-8080"
    ∧ ¬ (∃ tool_pre : String,
        socat_container_name ("abc") ("8080")
          = spec_relay_name tool_pre ("abc") ("8080")) := by
  refine ⟨by decide, ?_⟩
  rintro ⟨t, h⟩
  have hy : ('y' : Char) ∈ (spec_relay_name t ("abc") ("8080")).data := by
    unfold spec_relay_name
    rw [String.data_append, String.data_append]
    exact List.mem_append_left _ (List.mem_append_right _ (by decide))
  rw [← h] at hy
  exact absurd hy (by decide)

/-- C9 (amended): every relay is named
`dockim-{container_id}-socat-{host_port}`, deterministically from the
session's container id and the host port; starting a relay creates a
container with exactly that name, stopping one removes exactly the
container with that name, the listing keeps exactly the containers whose
name begins with the session prefix `dockim-{container_id}-socat-` (the
name with empty host port, a prefix of every relay name of the session)
and recovers the host port back out of the name — no bookkeeping store
beyond the named containers is consulted. -/
theorem relay_naming_convention (cid hp ip cp : String)
    (st : List SocatContainer)
    (hstart : st.any (fun c => c.name == socat_container_name cid hp) = false)
    (hdash : ('-' : Char) ∉ hp.data) :
    socat_container_name cid hp = "dockim-" ++ cid ++ "-socat-" ++ hp
    ∧ relay_step cid ip st (.start hp cp)
        = { name := socat_container_name cid hp,
            command := socat_command ip cp } :: st
    ∧ relay_step cid ip st (.stop hp)
        = st.filter (fun c => !(c.name == socat_container_name cid hp))
    ∧ list_forwarded_ports cid st
        = (st.filter (fun c =>
            (socat_container_name cid ("")).data.isPrefixOf c.name.data)).map
          (fun c => { host_port := extract_host_port c.name,
                      container_port := parse_container_port c.command })
    ∧ (socat_container_name cid ("")).data.isPrefixOf
        (socat_container_name cid hp).data = true
    ∧ extract_host_port (socat_container_name cid hp) = hp := by
  refine ⟨rfl, ?_, rfl, rfl, ?_, extract_host_port_socat cid hp hdash⟩
  · simp [relay_step, hstart]
  · rw [socat_name_data cid hp]
    exact isPrefixOf_append_self _ _

/-! ## Helper lemmas: auto-discovery loop -/

/-- Keys of a `filterMap` whose function returns entries keyed by its
argument form a sublist of the scanned list. -/
theorem filterMap_keys_sublist (g : Nat → Option AutoEntry)
    (hg : ∀ x y, g x = some y → y.1 = x) :
    ∀ l : List Nat, List.Sublist ((l.filterMap g).map (fun e => e.1)) l
  | [] => by simp
  | a :: l => by
    cases hga : g a with
    | none =>
      simp only [List.filterMap_cons, hga]
      exact (filterMap_keys_sublist g hg l).cons a
    | some y =>
      simp only [List.filterMap_cons, hga, List.map_cons]
      rw [hg a y hga]
      exact (filterMap_keys_sublist g hg l).cons₂ a

/-- The addition function of one poll iteration keys every produced entry
by the candidate port it was produced from. -/
theorem auto_additions_key (forwarded : List AutoEntry) (cid : String)
    (ch : Nat → Nat) (fok : Nat → Nat → Bool) (x : Nat) (y : AutoEntry)
    (hxy : (if forwarded.any (fun e => e.1 == x) then none
      else
        if fok (ch x) x then
          some (x, ch x, socat_container_name cid (toString (ch x)))
        else none) = some y) :
    y.1 = x ∧ forwarded.any (fun e => e.1 == x) = false := by
  by_cases h1 : forwarded.any (fun e => e.1 == x) = true
  · simp [h1] at hxy
  · by_cases h2 : fok (ch x) x = true
    · simp only [Bool.not_eq_true] at h1
      simp only [h1, Bool.false_eq_true, if_false, h2, if_true,
        Option.some.injEq] at hxy
      exact ⟨by rw [← hxy], h1⟩
    · simp only [Bool.not_eq_true] at h1
      simp only [Bool.not_eq_true] at h2
      simp [h1, h2] at hxy

/-- One poll iteration keeps the forwarded map keyed by pairwise distinct
container ports. -/
theorem auto_forward_iteration_keys (cid : String) (exclude : List Nat)
    (forwarded : List AutoEntry) (rec : PollRecord)
    (h : (forwarded.map (fun e => e.1)).Nodup) :
    ((auto_forward_iteration cid exclude forwarded rec).1.map
      (fun e => e.1)).Nodup := by
  obtain ⟨ls, ch, fok⟩ := rec
  cases ls with
  | error msg => simpa [auto_forward_iteration] using h
  | ok listening =>
    simp only [auto_forward_iteration]
    apply List.Nodup.sublist ((List.filter_sublist _).map _)
    rw [List.map_append, List.nodup_append]
    refine ⟨h, ?_, ?_⟩
    · exact (List.nodup_dedup _).sublist
        (filterMap_keys_sublist _
          (fun x y hxy => (auto_additions_key forwarded cid ch fok x y hxy).1)
          ((listening.filter
            (fun p => decide (1024 < p) && !(exclude.contains p))).dedup))
    · intro a ha hb
      rw [List.mem_map] at ha hb
      obtain ⟨e, he, hea⟩ := ha
      obtain ⟨y, hy, hya⟩ := hb
      rw [List.mem_filterMap] at hy
      obtain ⟨cp, _, hg⟩ := hy
      obtain ⟨hkey, hnone⟩ := auto_additions_key forwarded cid ch fok cp y hg
      have hcp : cp = a := by rw [← hya, hkey]
      subst hcp
      have : forwarded.any (fun x => x.1 == cp) = true :=
        List.any_eq_true.mpr ⟨e, he, by simp [hea]⟩
      rw [this] at hnone
      exact absurd hnone (by simp)

/-- The auto-discovery loop keeps the forwarded map keyed by pairwise
distinct container ports. -/
theorem run_auto_forward_keys (cid : String) (exclude : List Nat) :
    ∀ (evs : List AutoEvent) (f : List AutoEntry),
      (f.map (fun e => e.1)).Nodup →
      ((run_auto_forward cid exclude f evs).1.map (fun e => e.1)).Nodup
  | [], f, h => by simpa [run_auto_forward] using h
  | .shutdown :: rest, f, h => by simp [run_auto_forward]
  | .poll rec :: rest, f, h => by
    simp only [run_auto_forward]
    exact run_auto_forward_keys cid exclude rest _
      (auto_forward_iteration_keys cid exclude f rec h)

/-- One poll iteration only keeps forwarded entries whose container port
passed the threshold-and-exclusion filter. -/
theorem auto_forward_iteration_good (cid : String) (exclude : List Nat)
    (forwarded : List AutoEntry) (rec : PollRecord)
    (h : ∀ e ∈ forwarded, 1024 < e.1 ∧ exclude.contains e.1 = false) :
    ∀ e ∈ (auto_forward_iteration cid exclude forwarded rec).1,
      1024 < e.1 ∧ exclude.contains e.1 = false := by
  obtain ⟨ls, ch, fok⟩ := rec
  intro e he
  cases ls with
  | error msg => exact h e (by simpa [auto_forward_iteration] using he)
  | ok listening =>
    simp only [auto_forward_iteration] at he
    rw [List.mem_filter] at he
    obtain ⟨he, _⟩ := he
    rw [List.mem_append] at he
    rcases he with he | he
    · exact h e he
    · rw [List.mem_filterMap] at he
      obtain ⟨cp, hcp, hg⟩ := he
      obtain ⟨hkey, _⟩ := auto_additions_key forwarded cid ch fok cp e hg
      rw [List.mem_dedup, List.mem_filter] at hcp
      obtain ⟨_, hp⟩ := hcp
      simp only [Bool.and_eq_true, decide_eq_true_eq,
        Bool.not_eq_true'] at hp
      rw [hkey]
      exact hp

/-- The auto-discovery loop, started from a map that respects the
threshold-and-exclusion filter, preserves that property. -/
theorem run_auto_forward_good (cid : String) (exclude : List Nat) :
    ∀ (evs : List AutoEvent) (f : List AutoEntry),
      (∀ e ∈ f, 1024 < e.1 ∧ exclude.contains e.1 = false) →
      ∀ e ∈ (run_auto_forward cid exclude f evs).1,
        1024 < e.1 ∧ exclude.contains e.1 = false
  | [], f, h => by simpa [run_auto_forward] using h
  | .shutdown :: rest, f, h => by simp [run_auto_forward]
  | .poll rec :: rest, f, h => by
    simp only [run_auto_forward]
    exact run_auto_forward_good cid exclude rest _
      (auto_forward_iteration_good cid exclude f rec h)

/-- Running the loop on a concatenation of shutdown-free events followed
by more events splits into the two runs, concatenating teardown logs. -/
theorem run_auto_forward_append (cid : String) (exclude : List Nat) :
    ∀ (evs : List AutoEvent), (∀ e ∈ evs, e.isShutdown = false) →
      ∀ (f : List AutoEntry) (evs2 : List AutoEvent),
      run_auto_forward cid exclude f (evs ++ evs2)
        = ((run_auto_forward cid exclude
              (run_auto_forward cid exclude f evs).1 evs2).1,
           (run_auto_forward cid exclude f evs).2
             ++ (run_auto_forward cid exclude
                  (run_auto_forward cid exclude f evs).1 evs2).2)
  | [], _, f, evs2 => by simp [run_auto_forward]
  | .shutdown :: rest, h, f, evs2 =>
    absurd (h .shutdown (List.mem_cons_self _ _)) (by simp [AutoEvent.isShutdown])
  | .poll rec :: rest, h, f, evs2 => by
    have ih := run_auto_forward_append cid exclude rest
      (fun e he => h e (List.mem_cons_of_mem _ he))
      (auto_forward_iteration cid exclude f rec).1 evs2
    simp only [List.cons_append, run_auto_forward, List.append_eq]
    rw [ih]
    simp [List.append_assoc]

/-! ## Claim theorems: auto-discovery loop -/

/-- C6: every entry ever present in the auto-forward map of a run of the
auto-discovery loop has a container port above 1024 and outside the
exclusion set supplied at loop start — ports at or below 1024 and excluded
ports are never auto-forwarded, however often they appear in poll
results. -/
theorem auto_forward_threshold_exclusion (cid : String) (exclude : List Nat)
    (evs : List AutoEvent) (e : AutoEntry)
    (he : e ∈ (run_auto_forward cid exclude [] evs).1) :
    1024 < e.1 ∧ exclude.contains e.1 = false :=
  run_auto_forward_good cid exclude evs [] (by simp) e he

/-- Witness for C6: polling `[3000, 54321, 80, 9999]` with exclusion set
`[54321]` forwards port 3000, which is above the threshold and outside the
exclusion set. -/
theorem auto_forward_threshold_exclusion_witness :
    ((3000, 3000, socat_container_name ("abc") (toString 3000))
        ∈ (run_auto_forward ("abc") [54321] [] evs_ex).1)
    ∧ (1024 < 3000 ∧ ([54321] : List Nat).contains 3000 = false) := by
  have hmem : (3000, 3000, socat_container_name ("abc") (toString 3000))
      ∈ (run_auto_forward ("abc") [54321] [] evs_ex).1 := by decide
  exact ⟨hmem,
    auto_forward_threshold_exclusion ("abc") [54321] evs_ex _ hmem⟩

/-- C1: when the auto-discovery loop receives the one-shot shutdown signal
after any shutdown-free prefix of its run, it exits with an empty map and
the teardown log extends the previous teardowns by exactly the guard of
every remaining entry, once per entry (the map's container-port keys are
pairwise distinct) — so every remaining relay of this loop instance is
torn down exactly once and none remains. -/
theorem auto_forward_shutdown_teardown (cid : String) (exclude : List Nat)
    (evs rest : List AutoEvent) (h : ∀ e ∈ evs, e.isShutdown = false) :
    run_auto_forward cid exclude [] (evs ++ .shutdown :: rest)
      = ([], (run_auto_forward cid exclude [] evs).2
          ++ (run_auto_forward cid exclude [] evs).1.map (fun e => e.2.2))
    ∧ ((run_auto_forward cid exclude [] evs).1.map (fun e => e.1)).Nodup := by
  constructor
  · rw [run_auto_forward_append cid exclude evs h [] (.shutdown :: rest)]
    simp [run_auto_forward]
  · exact run_auto_forward_keys cid exclude evs [] (by simp)

/-- Witness for C1: after one successful poll that forwarded ports 3000
and 9999, the shutdown signal empties the map and tears down exactly those
two relays. -/
theorem auto_forward_shutdown_teardown_witness :
    (∀ e ∈ evs_ex, e.isShutdown = false)
    ∧ (run_auto_forward ("abc") [54321] [] (evs_ex ++ .shutdown :: [])
        = ([], (run_auto_forward ("abc") [54321] [] evs_ex).2
            ++ (run_auto_forward ("abc") [54321] [] evs_ex).1.map
              (fun e => e.2.2))
      ∧ ((run_auto_forward ("abc") [54321] [] evs_ex).1.map
          (fun e => e.1)).Nodup) := by
  have hs : ∀ e ∈ evs_ex, e.isShutdown = false := by
    intro e he
    simp only [evs_ex, List.mem_singleton] at he
    subst he
    rfl
  exact ⟨hs, auto_forward_shutdown_teardown ("abc") [54321] evs_ex [] hs⟩

/-- Witness for C9 (amended): the concrete session `abc` with host port
`8080`, starting from no running relays. -/
theorem relay_naming_convention_witness :
    (([] : List SocatContainer).any
        (fun c => c.name == socat_container_name ("abc") ("8080"))) = false
    ∧ (('-' : Char) ∉ ("8080" : String).data)
    ∧ (socat_container_name ("abc") ("8080")
          = "dockim-" ++ "abc" ++ "-socat-" ++ "8080"
      ∧ relay_step ("abc") ("172.17.0.2") [] (.start ("8080") ("80"))
          = { name := socat_container_name ("abc") ("8080"),
              command := socat_command ("172.17.0.2") ("80") } :: []
      ∧ relay_step ("abc") ("172.17.0.2") [] (.stop ("8080"))
          = List.filter (fun c : SocatContainer =>
              !(c.name == socat_container_name ("abc") ("8080"))) []
      ∧ list_forwarded_ports ("abc") []
          = (List.filter (fun c : SocatContainer =>
              (socat_container_name ("abc") ("")).data.isPrefixOf
                c.name.data) []).map
            (fun c => { host_port := extract_host_port c.name,
                        container_port := parse_container_port c.command })
      ∧ (socat_container_name ("abc") ("")).data.isPrefixOf
          (socat_container_name ("abc") ("8080")).data = true
      ∧ extract_host_port (socat_container_name ("abc") ("8080")) = "8080") :=
  ⟨rfl, by decide,
    relay_naming_convention ("abc") ("8080") ("172.17.0.2") ("80") [] rfl
      (by decide)⟩

end Dockim
